import Mathlib

/-!
# Verification of soar-dl download library behaviour

Shallow embedding of the parts of `pkgforge/soar-dl` (Rust) that the
specification talks about: the resume/restart logic (`src/resume.rs`),
the file downloader's inline resume logic and progress loop
(`src/downloader.rs`), the OCI layer machinery (`src/oci.rs`,
`src/downloader.rs`), release selection and API fallback
(`src/platform.rs`, `src/common.rs`), and URL classification
(`src/platform.rs`, `src/utils.rs`).

HTTP status codes are modelled as `Nat` (reqwest's `StatusCode` is a
constrained `u16`); header values and file contents are Lean `String`s;
byte counters (`u64` in Rust) are `Nat` with explicit saturation /
wrap-around where the source uses `saturating_add` / `+=`.
External library calls (the HTTP client, `serde_json`, the `regex`
crate, the filesystem) are abstracted by passing their observable
results as parameters; each such point is noted at the definition.
-/

namespace SoarDl

/-- `reqwest::StatusCode::is_success`: 2xx. -/
def statusIsSuccess (s : Nat) : Bool :=
  200 ≤ s && s ≤ 299

/-- `reqwest::StatusCode::is_server_error`: 5xx. -/
def statusIsServerError (s : Nat) : Bool :=
  500 ≤ s && s ≤ 599

/-- `StatusCode::RANGE_NOT_SATISFIABLE`. -/
def RANGE_NOT_SATISFIABLE : Nat := 416

/-- `StatusCode::OK`. -/
def STATUS_OK : Nat := 200

/-! ## Restart decision (`src/resume.rs` lines 51-63, `src/downloader.rs` lines 176-189) -/

/-- `ResumeSupport::should_restart_download` (src/resume.rs:51-63):
`status == RANGE_NOT_SATISFIABLE || (etag.is_some() && remote_etag.is_some() && etag != remote_etag)
|| (last_modified.is_some() && remote_modified.is_some() && last_modified != remote_modified)`. -/
def shouldRestartDownload (status : Nat) (etag lastModified remoteEtag remoteModified : Option String) : Bool :=
  status == RANGE_NOT_SATISFIABLE
    || (etag.isSome && remoteEtag.isSome && !(etag == remoteEtag))
    || (lastModified.isSome && remoteModified.isSome && !(lastModified == remoteModified))

/-- The `changed` condition computed inline in `Downloader::download`
(src/downloader.rs:176-179).  Note the source tests
`last_modified.is_some()` twice instead of testing
`remote_modified.is_some()`. -/
def downloaderChanged (etag lastModified remoteEtag remoteModified : Option String) : Bool :=
  (etag.isSome && remoteEtag.isSome && !(etag == remoteEtag))
    || (lastModified.isSome && lastModified.isSome && !(lastModified == remoteModified))

/-- The file downloader's inline restart predicate (src/downloader.rs:182):
`status == RANGE_NOT_SATISFIABLE || changed` (the `attempt == 0` guard
decides whether the restart is acted upon, not whether it fires). -/
def downloaderRestart (status : Nat) (etag lastModified remoteEtag remoteModified : Option String) : Bool :=
  status == RANGE_NOT_SATISFIABLE || downloaderChanged etag lastModified remoteEtag remoteModified

/-- The restart condition as the specification words it: 416, or both
etags present and different, or both last-modified values present and
different. -/
def specRestart (status : Nat) (etag lastModified remoteEtag remoteModified : Option String) : Prop :=
  status = 416
    ∨ (etag.isSome = true ∧ remoteEtag.isSome = true ∧ etag ≠ remoteEtag)
    ∨ (lastModified.isSome = true ∧ remoteModified.isSome = true ∧ lastModified ≠ remoteModified)

instance (status : Nat) (a b c d : Option String) : Decidable (specRestart status a b c d) := by
  unfold specRestart
  infer_instance

/-- `ResumeSupport::should_restart_download` agrees with the
specification's wording on every input. -/
theorem shouldRestartDownload_iff_spec (status : Nat) (etag lastModified remoteEtag remoteModified : Option String) :
    shouldRestartDownload status etag lastModified remoteEtag remoteModified = true
      ↔ specRestart status etag lastModified remoteEtag remoteModified := by
  unfold shouldRestartDownload specRestart RANGE_NOT_SATISFIABLE
  cases etag <;> cases lastModified <;> cases remoteEtag <;> cases remoteModified <;>
    simp [Option.isSome, Bool.or_eq_true, Bool.and_eq_true, beq_iff_eq]
  all_goals tauto

/-- C2: the restart decision never fires merely because the local
last-modified is present while the remote one is absent — refuted for
the file downloader's inline check.  With status 200, no etags, a local
last-modified and no remote last-modified, the inline check
(src/downloader.rs:176-182) fires although the specified decision (and
`ResumeSupport::should_restart_download`) does not: the source tests
`last_modified.is_some()` twice where the second test should be
`remote_modified.is_some()`. -/
theorem c2_inline_restart_fires_without_remote_last_modified :
    downloaderRestart 200 none (some "Wed, 01 Jan 2025 00:00:00 GMT") none none = true
      ∧ ¬ specRestart 200 none (some "Wed, 01 Jan 2025 00:00:00 GMT") none none
      ∧ shouldRestartDownload 200 none (some "Wed, 01 Jan 2025 00:00:00 GMT") none none = false := by
  refine ⟨rfl, by decide, rfl⟩

/-! ## File downloader progress loop (`src/downloader.rs` lines 296-306) -/

/-- `u64::MAX`. -/
def U64_MAX : Nat := 2 ^ 64 - 1

/-- `u64::saturating_add`. -/
def satAdd64 (a b : Nat) : Nat := min (a + b) U64_MAX

/-- `u64` addition with wrap-around (release-mode `+=`). -/
def wrapAdd64 (a b : Nat) : Nat := (a + b) % 2 ^ 64

/-- The body of the chunk loop in `Downloader::download`
(src/downloader.rs:296-306), for a stream that runs to completion.
Input: the sizes of the chunks delivered by the stream and the starting
value of `downloaded` (the pre-existing part-file length).  For each
chunk the source executes, in order:
`file.write_all(&bytes)`, then
`downloaded = downloaded.saturating_add(bytes.len() as u64)` (line 299),
then `callback(DownloadState::Progress(downloaded))` (line 302), then
`downloaded += bytes.len() as u64` (line 305).
Returns the list of values carried by the emitted `Progress` events and
the final value of `downloaded`. -/
def progressLoop : List Nat → Nat → List Nat × Nat
  | [], d => ([], d)
  | b :: rest, d =>
      let d1 := satAdd64 d b
      let d2 := wrapAdd64 d1 b
      let res := progressLoop rest d2
      (d1 :: res.1, res.2)

/-- The `Progress` values emitted between a `Preparing` and the
`Complete` of a completed stream. -/
def progressEvents (chunks : List Nat) (start : Nat) : List Nat :=
  (progressLoop chunks start).1

/-- The number of bytes appended to the part file by the same loop:
every chunk is written in full by `file.write_all` (line 298). -/
def bytesAppended (chunks : List Nat) : Nat :=
  chunks.sum

/-- C1: every `Progress` event reports the cumulative number of bytes
appended since the latest `Preparing` — refuted.  For a fresh download
(`downloaded = 0`) whose stream delivers two one-byte chunks, the loop
emits `Progress 1` then `Progress 3`, because `downloaded` is
incremented twice per chunk (src/downloader.rs:299 and 305), while only
2 bytes are appended to `P.part`; so the last `Progress` value differs
from the total bytes written (and from `total_bytes = 2`). -/
theorem c1_progress_double_counts :
    progressEvents [1, 1] 0 = [1, 3]
      ∧ bytesAppended [1, 1] = 2
      ∧ (progressEvents [1, 1] 0).getLast? ≠ some (bytesAppended [1, 1]) := by
  refine ⟨rfl, rfl, by decide⟩

/-! ## OCI layers and the `download_oci` spawn loop
(`src/oci.rs` lines 16-23, 308-314; `src/downloader.rs` lines 403-504) -/

/-- `OciLayer` (src/oci.rs:16-23).  `annotations` is a string map,
modelled as an association list. -/
structure OciLayer where
  mediaType : String
  digest : String
  size : Nat
  annotations : List (String × String)

/-- `OciLayer::get_title` (src/oci.rs:309-313). -/
def OciLayer.getTitle (l : OciLayer) : Option String :=
  l.annotations.lookup "org.opencontainers.image.title"

/-- `Semaphore::new(options.concurrency.unwrap_or(1) as usize)`
(src/downloader.rs:449): the capacity of the semaphore. -/
def semaphoreCapacity (concurrency : Option Nat) : Nat :=
  concurrency.getD 1

/-- The synchronisation-relevant actions the main task of
`download_oci` performs, in program order. -/
inductive OciEvent
  | acquirePermit
  | spawnTask (i : Nat)
  | releasePermit
  | joinAll
deriving DecidableEq, Repr

/-- The spawn loop of `OciDownloader::download_oci`
(src/downloader.rs:459-497) as the sequence of synchronisation events
the main task performs, for the filtered `layers` and the initial
contents of `completed_layers` (tasks insert into that set only on
completion, so during spawning it keeps its initial value).  Per layer:
the completed-set check (line 460) precedes the permit acquisition
(line 468); the title check (line 473) sits between the acquisition and
the spawn, and `continue` drops the permit; on the normal path the task
is spawned (line 479) and then `drop(permit)` runs at once (line 493).
After the loop, `join_all(tasks)` (line 497) is the first point at
which the main task observes task completion. -/
def ociSpawnLoop : List OciLayer → List String → Nat → List OciEvent
  | [], _, _ => [.joinAll]
  | l :: rest, completed, i =>
      if completed.contains l.digest then
        ociSpawnLoop rest completed i
      else
        match l.getTitle with
        | none => .acquirePermit :: .releasePermit :: ociSpawnLoop rest completed i
        | some _ =>
            .acquirePermit :: .spawnTask i :: .releasePermit ::
              ociSpawnLoop rest completed (i + 1)

/-- Number of tasks spawned in a trace fragment. -/
def countSpawns (t : List OciEvent) : Nat :=
  t.countP fun e => match e with | .spawnTask _ => true | _ => false

/-- Free permits of a capacity-`c` semaphore after each event of the
trace. -/
def availList (c : Nat) : List OciEvent → List Nat
  | [] => []
  | e :: rest =>
      let c' := match e with
        | .acquirePermit => c - 1
        | .releasePermit => c + 1
        | _ => c
      c' :: availList c' rest

/-- A first filtered layer with a title annotation. -/
def layerA : OciLayer :=
  ⟨"application/octet-stream", "sha256:aaa", 3,
    [("org.opencontainers.image.title", "a")]⟩

/-- A second filtered layer with a title annotation. -/
def layerB : OciLayer :=
  ⟨"application/octet-stream", "sha256:bbb", 4,
    [("org.opencontainers.image.title", "b")]⟩

/-- C3: at most `concurrency` layer tasks in flight, the permit being
released only when its task completes — refuted.  With the default
capacity (`concurrency = None`, so 1) and two fresh layers, the main
task's trace acquires, spawns and immediately releases per layer
(`drop(permit)` at src/downloader.rs:493 runs right after `task::spawn`,
not when the task finishes): after five events both tasks have been
spawned, `join_all` has not yet been reached, and the permit count is
back at capacity before the second acquisition (the availability trace
returns to 1 after each release).  So both tasks can be in flight at
once although the semaphore has one permit. -/
theorem c3_permit_dropped_at_spawn :
    semaphoreCapacity none = 1
      ∧ ociSpawnLoop [layerA, layerB] [] 0 =
          [.acquirePermit, .spawnTask 0, .releasePermit,
           .acquirePermit, .spawnTask 1, .releasePermit, .joinAll]
      ∧ countSpawns ((ociSpawnLoop [layerA, layerB] [] 0).take 5) = 2
      ∧ OciEvent.joinAll ∉ (ociSpawnLoop [layerA, layerB] [] 0).take 5
      ∧ availList 1 (ociSpawnLoop [layerA, layerB] [] 0) = [0, 0, 1, 0, 0, 1, 1]
      ∧ 2 > semaphoreCapacity none := by
  refine ⟨rfl, by decide, by decide, by decide, by decide, by decide⟩

/-! ## Errors, `download_oci`'s result, and the caller's retry loop
(`src/error.rs`, `src/downloader.rs` lines 439-503,
`src/bin/soar-dl/download_manager.rs` lines 150-174) -/

/-- `DownloadError` (src/error.rs:4-21).  Error payloads that carry
foreign types (`io::Error`, `reqwest::Error`, `url::ParseError`) are
dropped; the constructors relevant to the claims keep their data. -/
inductive DownloadError
  | InvalidUrl (url : String)
  | IoError
  | NetworkError
  | ResourceError (status : Nat) (url : String)
  | InvalidResponse
  | LayersNotFound
  | ChunkError
  | FileNameNotFound
deriving DecidableEq, Repr

/-- The result `OciDownloader::download_oci` returns for a manifest
whose filtered layer list is `layers`, when the spawned layer tasks
finish with `taskResults`: empty layer list errors with
`LayersNotFound` (src/downloader.rs:439-441); otherwise
`let _ = join_all(tasks).await;` (line 497) discards every element of
`taskResults`, `Complete` is emitted (lines 499-501) and `Ok(())` is
returned (line 503). -/
def downloadOciResult (layers : List OciLayer)
    (taskResults : List (Except DownloadError Unit)) : Except DownloadError Unit :=
  if layers.isEmpty then .error .LayersNotFound
  else
    let _ := taskResults
    .ok ()

/-- The error pattern the caller retries on
(src/bin/soar-dl/download_manager.rs:159-165):
`ResourceError { status: TOO_MANY_REQUESTS, .. } | ChunkError`. -/
def isRetryableError : DownloadError → Bool
  | .ResourceError 429 _ => true
  | .ChunkError => true
  | _ => false

/-- Outcome of the retry loop in `DownloadManager::handle_oci_download`. -/
inductive RetryOutcome
  | success
  | aborted (e : DownloadError)
  | maxRetriesExhausted
deriving DecidableEq, Repr

/-- The retry loop of `DownloadManager::handle_oci_download`
(src/bin/soar-dl/download_manager.rs:151-172), with `attemptResult n`
the outcome of the `n`-th call of `download_oci`.  `retries` increments
only after a retryable error (the loop `break`s on success and on other
errors before reaching `retries += 1`), and the loop aborts at the top
once `retries > 5`. -/
def retryLoop (attemptResult : Nat → Except DownloadError Unit) (retries : Nat) :
    RetryOutcome :=
  if h : retries > 5 then .maxRetriesExhausted
  else
    match attemptResult retries with
    | .ok _ => .success
    | .error e =>
        if isRetryableError e then retryLoop attemptResult (retries + 1)
        else .aborted e
termination_by 6 - retries
decreasing_by omega

/-- `handle_oci_download`'s loop entered with `retries = 0`. -/
def handleOciDownloadLoop (attemptResult : Nat → Except DownloadError Unit) : RetryOutcome :=
  retryLoop attemptResult 0

/-- C5: a failing layer pull task makes `download_oci` surface the
error — refuted.  With one filtered layer whose pull task fails with
`ChunkError`, `download_oci` still returns `Ok(())` because line 497
(`let _ = join_all(tasks).await;`) discards the task results; the
caller's retry loop would have retried on exactly this error
(`isRetryableError ChunkError = true`) but never sees it: fed the
success it actually receives, the loop stops at once. -/
theorem c5_layer_errors_discarded :
    downloadOciResult [layerA] [.error .ChunkError] = .ok ()
      ∧ isRetryableError .ChunkError = true
      ∧ handleOciDownloadLoop (fun _ => downloadOciResult [layerA] [.error .ChunkError]) =
          .success := by
  refine ⟨rfl, rfl, ?_⟩
  simp [handleOciDownloadLoop, retryLoop, downloadOciResult]

/-- The retry policy of `handle_oci_download` on the errors that do
reach it (manifest fetching, blob downloads): a non-retryable error
aborts at once; an everlasting retryable error is retried five times
(attempts 1 through 6) before the loop declares the retries exhausted;
a retryable error followed by success succeeds. -/
theorem retryLoop_policy :
    handleOciDownloadLoop (fun _ => .error .InvalidResponse) = .aborted .InvalidResponse
      ∧ handleOciDownloadLoop (fun _ => .error (.ResourceError 429 "u")) = .maxRetriesExhausted
      ∧ handleOciDownloadLoop (fun n => if n = 0 then .error .ChunkError else .ok ()) = .success := by
  refine ⟨?_, ?_, ?_⟩ <;>
    simp [handleOciDownloadLoop, retryLoop, isRetryableError]

/-! ## Sidecar metadata (`src/resume.rs` lines 11-29, `src/downloader.rs` lines 44-48, 135-141) -/

/-- `DownloadMeta` (src/resume.rs:11-15); `Meta` in src/downloader.rs:44-48
is field-for-field the same struct. -/
structure DownloadMeta where
  etag : Option String
  lastModified : Option String
deriving DecidableEq, Repr

/-- `ResumeSupport::read_metadata` (src/resume.rs:18-29).
`metaExists` is the result of `fs::try_exists` and `decoded` the result
of `serde_json::from_str::<DownloadMeta>` on the sidecar's contents
(`none` when the contents do not decode); both calls are external and
abstracted by their results.  On a decode failure the source maps the
serde error to `DownloadError::InvalidResponse` and returns it with `?`. -/
def readMetadata (metaExists : Bool) (decoded : Option DownloadMeta) :
    Except DownloadError (Option String × Option String) :=
  if metaExists then
    match decoded with
    | some meta => .ok (meta.etag, meta.lastModified)
    | none => .error .InvalidResponse
  else
    .ok (none, none)

/-- The file downloader's own sidecar read (src/downloader.rs:135-141):
`serde_json::from_str(&data).unwrap()`, so a decode failure panics.
`none` in the result models the panic. -/
def downloaderReadMeta (metaExists : Bool) (decoded : Option DownloadMeta) :
    Option (Option String × Option String) :=
  if metaExists then
    decoded.map fun meta => (meta.etag, meta.lastModified)
  else
    some (none, none)

/-- C6 as stated is false: a sidecar whose contents do not decode is
not treated as absent.  `ResumeSupport::read_metadata` returns
`Err(DownloadError::InvalidResponse)` instead of `Ok((None, None))`,
and the file downloader's inline read panics on its `unwrap`. -/
theorem c6_corrupt_sidecar_aborts :
    readMetadata true none = .error .InvalidResponse
      ∧ readMetadata true none ≠ .ok (none, none)
      ∧ downloaderReadMeta true none = none := by
  refine ⟨rfl, by simp [readMetadata], rfl⟩

/-- C6 amended: a missing sidecar yields `(None, None)` in both reads,
and a sidecar that decodes yields its fields; but a sidecar that fails
to decode makes `read_metadata` return `DownloadError::InvalidResponse`
and makes the file downloader's inline read panic — the download is
aborted, not resumed as if the sidecar were absent. -/
theorem c6_sidecar_read_behaviour :
    (∀ d, readMetadata false d = .ok (none, none)
        ∧ downloaderReadMeta false d = some (none, none))
      ∧ readMetadata true none = .error .InvalidResponse
      ∧ downloaderReadMeta true none = none
      ∧ (∀ m, readMetadata true (some m) = .ok (m.etag, m.lastModified)
          ∧ downloaderReadMeta true (some m) = some (m.etag, m.lastModified)) := by
  refine ⟨fun d => ⟨rfl, rfl⟩, rfl, rfl, fun m => ⟨rfl, rfl⟩⟩

/-! ## Content-Range parsing and the truncation decision
(`src/resume.rs` lines 65-84, `src/downloader.rs` lines 247-264,
`src/oci.rs` lines 259-279) -/

/-- `str::split_whitespace`: maximal non-whitespace runs. -/
def splitWhitespaceAux : List Char → List Char → List (List Char)
  | [], acc => if acc.isEmpty then [] else [acc.reverse]
  | c :: rest, acc =>
      if c.isWhitespace then
        if acc.isEmpty then splitWhitespaceAux rest []
        else acc.reverse :: splitWhitespaceAux rest []
      else splitWhitespaceAux rest (c :: acc)

/-- `str::split_whitespace` on a string. -/
def splitWhitespace (s : String) : List String :=
  (splitWhitespaceAux s.data []).map List.asString

/-- `str::rsplit_once(ch)`: the pieces before and after the last
occurrence of `ch`, or `None` when `ch` does not occur. -/
def rsplitOnce (ch : Char) : List Char → Option (List Char × List Char)
  | [] => none
  | c :: rest =>
      match rsplitOnce ch rest with
      | some (before, after) => some (c :: before, after)
      | none => if c = ch then some ([], rest) else none

/-- `str::parse::<u64>`: an optional leading `+`, then at least one
decimal digit, value at most `u64::MAX`. -/
def parseU64 (s : List Char) : Option Nat :=
  let digits := match s with
    | '+' :: rest => rest
    | _ => s
  if digits.isEmpty then none
  else if digits.all Char.isDigit then
    let v := digits.foldl (fun acc c => acc * 10 + (c.toNat - 48)) 0
    if v ≤ U64_MAX then some v else none
  else none

/-- The start offset parsed from a `Content-Range` header value:
`split_whitespace().nth(1)`, then the piece before the first `/`, then
the piece before the first `-`, then `parse::<u64>()` — this chain is
identical in `ResumeSupport::extract_range_info` (src/resume.rs:67-73)
and in `Downloader::download` (src/downloader.rs:255-262). -/
def contentRangeStart (cr : String) : Option Nat :=
  match (splitWhitespace cr).get? 1 with
  | none => none
  | some tok => parseU64 ((tok.data.takeWhile (· ≠ '/')).takeWhile (· ≠ '-'))

/-- The total size derived from the response: `Content-Range`'s part
after the last `/` parsed as `u64`, else `content_length()`, else 0 —
identical in src/resume.rs:76-81 and src/downloader.rs:247-253. -/
def responseTotalSize (contentRange : Option String) (contentLength : Option Nat) : Nat :=
  let fromRange := match contentRange with
    | none => none
    | some cr =>
        match rsplitOnce '/' cr.data with
        | none => none
        | some (_, tot) => parseU64 tot
  ((fromRange.orElse fun _ => contentLength).getD 0)

/-- `ResumeSupport::extract_range_info` (src/resume.rs:65-84):
`(should_truncate, total_size)`.  `contentRange` is the header value
when present and readable as a string; `contentLength` is
`response.content_length()`.  Note the HTTP status is not consulted. -/
def extractRangeInfo (contentRange : Option String) (contentLength : Option Nat)
    (downloaded : Nat) : Bool × Nat :=
  let shouldTruncate := match contentRange with
    | none => false
    | some cr =>
        match contentRangeStart cr with
        | none => false
        | some start => start != downloaded
  (shouldTruncate, responseTotalSize contentRange contentLength)

/-- The file downloader's truncation decision (src/downloader.rs:255-264):
the same `Content-Range` start test, `|| status == reqwest::StatusCode::OK`. -/
def downloaderShouldTruncate (contentRange : Option String) (status : Nat)
    (downloaded : Nat) : Bool :=
  (match contentRange with
    | none => false
    | some cr =>
        match contentRangeStart cr with
        | none => false
        | some start => start != downloaded)
    || status == STATUS_OK

/-- `OciClient::pull_layer`'s file-open decision (src/oci.rs:259-279):
the part file is truncated when `extract_range_info` says so or when
nothing was downloaded yet, otherwise it is opened in append mode. -/
def pullLayerTruncates (contentRange : Option String) (contentLength : Option Nat)
    (downloaded : Nat) : Bool :=
  (extractRangeInfo contentRange contentLength downloaded).1 || downloaded == 0

/-- C4: a `200 OK` answer to a ranged request always truncates the
part, in the file downloader and in the OCI blob pull, even without a
`Content-Range` header — refuted for the OCI blob pull.  With
`downloaded = 5` and a 200 response carrying no `Content-Range`,
`extract_range_info` reports no truncation (it never looks at the
status) and `pull_layer` opens the part in append mode, whereas the
file downloader's own decision (whose `|| status == OK` term
`extract_range_info` lacks) does truncate.  When the 200 response does
carry `Content-Range` starting at 0, both paths truncate. -/
theorem c4_oci_200_does_not_truncate :
    pullLayerTruncates none (some 100) 5 = false
      ∧ downloaderShouldTruncate none 200 5 = true
      ∧ pullLayerTruncates (some "bytes 0-99/100") none 5 = true
      ∧ (extractRangeInfo none (some 100) 5).2 = 100 := by
  exact ⟨rfl, rfl, by decide, rfl⟩

/-! ## Part-path derivation (`src/resume.rs` lines 44-49, `src/downloader.rs` lines 132-133) -/

/-- The directory part (with its trailing slash) and the final
component of a path string. -/
def splitAtLastSlash (p : List Char) : List Char × List Char :=
  match rsplitOnce '/' p with
  | some (d, n) => (d ++ ['/'], n)
  | none => ([], p)

/-- `Path::file_stem` on a file name: the portion before the last `.`,
except that a name whose only `.` is leading (a hidden file) is its own
stem. -/
def fileStemChars (name : List Char) : List Char :=
  match rsplitOnce '.' name with
  | none => name
  | some ([], _) => name
  | some (c :: before, _) => c :: before

/-- `Path::with_extension(ext)` for a non-empty `ext`, on a path whose
final component is a regular file name: the file name is replaced by
its stem followed by `.` and `ext`.  (`provisional_path` in
`Downloader::download` always has such a final component.) -/
def withExtension (p : String) (ext : String) : String :=
  let pair := splitAtLastSlash p.data
  (pair.1 ++ fileStemChars pair.2 ++ '.' :: ext.data).asString

/-- `Path::extension().is_some()` on such a path: the final component
has a `.` that is not its first character. -/
def hasFileExtension (p : String) : Bool :=
  match rsplitOnce '.' (splitAtLastSlash p.data).2 with
  | none => false
  | some ([], _) => false
  | some (_ :: _, _) => true

/-- `ResumeSupport::get_part_paths` (src/resume.rs:44-49):
`format!("{}.part", path.display())` and
`format!("{}.part.meta", path.display())` — plain appends. -/
def getPartPaths (p : String) : String × String :=
  (p ++ ".part", p ++ ".part.meta")

/-- The file downloader's own derivation (src/downloader.rs:132-133):
`provisional_path.with_extension("part")` and
`provisional_path.with_extension("part.meta")`. -/
def downloaderPartPaths (p : String) : String × String :=
  (withExtension p "part", withExtension p "part.meta")

/-- `rsplitOnce` reassembles its input. -/
theorem rsplitOnce_append (ch : Char) :
    ∀ l before after, rsplitOnce ch l = some (before, after) →
      l = before ++ ch :: after := by
  intro l
  induction l with
  | nil => intro _ _ h; cases h
  | cons c rest ih =>
      intro before after h
      unfold rsplitOnce at h
      cases hr : rsplitOnce ch rest with
      | some pair =>
          rw [hr] at h
          cases h
          simpa using congrArg (c :: ·) (ih pair.1 pair.2 hr)
      | none =>
          rw [hr] at h
          by_cases hc : c = ch
          · simp [hc] at h
            simp [hc, ← h.1, ← h.2]
          · simp [hc] at h

/-- C7 as stated is false: for a target that already carries an
extension, the file downloader does not append `.part`.  For `F.bin`
it derives `F.part` and `F.part.meta` (replacing the extension), while
`ResumeSupport::get_part_paths` appends, giving `F.bin.part` and
`F.bin.part.meta`. -/
theorem c7_downloader_replaces_extension :
    downloaderPartPaths "F.bin" = ("F.part", "F.part.meta")
      ∧ getPartPaths "F.bin" = ("F.bin.part", "F.bin.part.meta")
      ∧ downloaderPartPaths "F.bin" ≠ getPartPaths "F.bin" := by
  refine ⟨by decide, by decide, by decide⟩

/-- C7 amended: `ResumeSupport::get_part_paths` appends `.part` and
`.part.meta` to every final path, and the file downloader's
`with_extension` derivation agrees with it exactly on the paths whose
final component has no extension; on a path such as `F.bin` the
downloader instead replaces the extension, producing `F.part` and
`F.part.meta`. -/
theorem c7_part_path_mapping :
    (∀ p, getPartPaths p = (p ++ ".part", p ++ ".part.meta"))
      ∧ (∀ p, hasFileExtension p = false → downloaderPartPaths p = getPartPaths p)
      ∧ downloaderPartPaths "F.bin" = ("F.part", "F.part.meta") := by
  refine ⟨fun p => rfl, ?_, by decide⟩
  intro p hp
  have hstem : fileStemChars (splitAtLastSlash p.data).2 = (splitAtLastSlash p.data).2 := by
    unfold hasFileExtension at hp
    unfold fileStemChars
    cases hr : rsplitOnce '.' (splitAtLastSlash p.data).2 with
    | none => rfl
    | some pair =>
        obtain ⟨before, after⟩ := pair
        cases before with
        | nil => rfl
        | cons c cs => rw [hr] at hp; simp at hp
  have hsplit : (splitAtLastSlash p.data).1 ++ (splitAtLastSlash p.data).2 = p.data := by
    unfold splitAtLastSlash
    cases hr : rsplitOnce '/' p.data with
    | none => simp
    | some pair =>
        have := rsplitOnce_append '/' p.data pair.1 pair.2 hr
        simp [this]
  unfold downloaderPartPaths getPartPaths withExtension
  refine Prod.ext ?_ ?_ <;>
    · apply String.ext
      simp [List.asString, String.data_append, hstem, ← List.append_assoc, hsplit]

/-- Witness: for an extensionless target the two derivations coincide. -/
theorem c7_part_path_mapping_witness :
    downloaderPartPaths "file" = getPartPaths "file" :=
  c7_part_path_mapping.2.1 "file" (by decide)

/-! ## Release selection (`src/platform.rs` lines 234-249, `src/common.rs` lines 152-167) -/

/-- `PlatformError` (src/error.rs:62-71); foreign payload types are
dropped as for `DownloadError`. -/
inductive PlatformError
  | ApiError (status : Nat)
  | DownloadError (e : DownloadError)
  | InvalidInput (s : String)
  | InvalidResponse
  | NoMatchingAssets (availableAssets : List String)
  | NoRelease (tag : Option String)
  | RepositoryNotFound (owner repo : String)
deriving DecidableEq, Repr

/-- The release fields `filter_releases` consults, via the `Release`
trait (src/platform.rs:110-116). -/
structure ReleaseInfo where
  tagName : String
  prerelease : Bool
deriving DecidableEq, Repr

/-- The release-selection step of `ReleaseHandler::filter_releases` in
src/platform.rs:234-243: with a tag,
`releases.iter().find(|release| release.tag_name() == tag_name)`;
without one,
`releases.iter().find(|release| !release.is_prerelease()).map_or_else(|| releases.first(), Some)`. -/
def filterReleasesSelect (tag : Option String) (releases : List ReleaseInfo) :
    Option ReleaseInfo :=
  match tag with
  | some t => releases.find? fun r => r.tagName == t
  | none =>
      match releases.find? fun r => !r.prerelease with
      | some r => some r
      | none => releases.head?

/-- `str::starts_with(pat)` on characters. -/
def charsStartWith : List Char → List Char → Bool
  | _, [] => true
  | [], _ :: _ => false
  | c :: cs, d :: ds => c == d && charsStartWith cs ds

/-- `str::starts_with(pat)`. -/
def strStartsWith (s pat : String) : Bool :=
  charsStartWith s.data pat.data

/-- The same step in src/common.rs:152-161, whose tag arm is
`releases.iter().find(|release| release.tag_name().starts_with(tag_name))`. -/
def filterReleasesSelectCommon (tag : Option String) (releases : List ReleaseInfo) :
    Option ReleaseInfo :=
  match tag with
  | some t => releases.find? fun r => strStartsWith r.tagName t
  | none =>
      match releases.find? fun r => !r.prerelease with
      | some r => some r
      | none => releases.head?

/-- The `let Some(release) = release else return NoRelease` step
(src/platform.rs:245-249). -/
def filterReleasesRelease (tag : Option String) (releases : List ReleaseInfo) :
    Except PlatformError ReleaseInfo :=
  match filterReleasesSelect tag releases with
  | some r => .ok r
  | none => .error (.NoRelease tag)

/-- Modelled from the spec's words, for comparison with the source:
"If `tag` supplied: first release whose `tag_name == tag`". -/
def firstExactTag (t : String) : List ReleaseInfo → Option ReleaseInfo
  | [] => none
  | r :: rest => if r.tagName = t then some r else firstExactTag t rest

/-- Modelled from the spec's words, for comparison with the source:
"Else: first non-prerelease". -/
def firstStableRelease : List ReleaseInfo → Option ReleaseInfo
  | [] => none
  | r :: rest => if r.prerelease then firstStableRelease rest else some r

/-- Modelled from the spec's words, for comparison with the source:
the selection the claim describes (exact tag match; else first
non-prerelease; else the first release). -/
def specSelectRelease : Option String → List ReleaseInfo → Option ReleaseInfo
  | some t, rs => firstExactTag t rs
  | none, rs =>
      match firstStableRelease rs with
      | some r => some r
      | none => rs.head?

/-- C8 as stated is false for `src/common.rs`: its `filter_releases`
matches the supplied tag by prefix, not exact equality.  With tag `v1`
and one release tagged `v1.1`, the common.rs selection picks that
release while the claimed (and platform.rs) selection finds no release. -/
theorem c8_common_matches_tag_by_prefix_only :
    filterReleasesSelectCommon (some "v1") [⟨"v1.1", false⟩] = some ⟨"v1.1", false⟩
      ∧ specSelectRelease (some "v1") [⟨"v1.1", false⟩] = none
      ∧ filterReleasesSelect (some "v1") [⟨"v1.1", false⟩] = none
      ∧ ("v1.1" : String) ≠ "v1" := by
  refine ⟨by decide, by decide, by decide, by decide⟩

/-- C8 amended: the platform.rs selection behaves exactly as the claim
describes (first exactly-matching tag; else first non-prerelease, else
the first release; `NoRelease{tag}` when nothing is selected), while
the common.rs selection picks the first release whose tag merely
starts with the supplied tag. -/
theorem c8_release_selection :
    (∀ tag rs, filterReleasesSelect tag rs = specSelectRelease tag rs)
      ∧ (∀ t rs r, filterReleasesSelectCommon (some t) rs = some r →
          strStartsWith r.tagName t = true)
      ∧ (∀ tag rs, filterReleasesSelect tag rs = none →
          filterReleasesRelease tag rs = .error (.NoRelease tag)) := by
  refine ⟨?_, ?_, ?_⟩
  · intro tag rs
    cases tag with
    | some t =>
        simp only [filterReleasesSelect, specSelectRelease]
        induction rs with
        | nil => rfl
        | cons r rest ih =>
            by_cases h : r.tagName = t
            · rw [List.find?_cons_of_pos _ (by simpa using h)]
              simp [firstExactTag, h]
            · rw [List.find?_cons_of_neg _ (by simpa using h)]
              simp [firstExactTag, h, ih]
    | none =>
        simp only [filterReleasesSelect, specSelectRelease]
        have hfind : rs.find? (fun r => !r.prerelease) = firstStableRelease rs := by
          induction rs with
          | nil => rfl
          | cons r rest ih =>
              by_cases h : r.prerelease
              · rw [List.find?_cons_of_neg _ (by simp [h])]
                simp [firstStableRelease, h, ih]
              · rw [List.find?_cons_of_pos _ (by simp [h])]
                simp [firstStableRelease, h]
        rw [hfind]
  · intro t rs r h
    simpa using List.find?_some h
  · intro tag rs h
    simp [filterReleasesRelease, h]

/-- Witness for the selection characterisation: platform.rs selection
agrees with the claimed one on a concrete list, and an empty list gives
`NoRelease`. -/
theorem c8_release_selection_witness :
    filterReleasesSelect (some "v2") [⟨"v2", true⟩] =
        specSelectRelease (some "v2") [⟨"v2", true⟩]
      ∧ filterReleasesRelease (some "v9") [] = .error (.NoRelease (some "v9")) :=
  ⟨c8_release_selection.1 (some "v2") [⟨"v2", true⟩],
    c8_release_selection.2.2 (some "v9") [] rfl⟩

/-! ## Mirror-first API fallback (`src/platform.rs` lines 179-197,
`src/common.rs` lines 113-127, `src/utils.rs` lines 54-59) -/

/-- `ApiType` (src/platform.rs:18-21). -/
inductive ApiType
  | PkgForge
  | Primary
deriving DecidableEq, Repr

/-- `should_fallback` (src/utils.rs:54-59, duplicated in
src/common.rs:20-25): 429, 401, 403 or any 5xx. -/
def shouldFallback (status : Nat) : Bool :=
  status == 429 || status == 401 || status == 403 || statusIsServerError status

/-- The API-selection stage of `ReleaseHandler::fetch_releases`
(src/platform.rs:187-197; textually the same in src/common.rs:117-127).
`mirror` and `primary` are the results of `call_api` against the
pkgforge mirror and the primary API (`Err` is a transport-level
failure, already mapped to `NetworkError`; `Ok st` is a response with
status `st`).  Returns the response (or error) `fetch_releases`
continues with, paired with the APIs contacted in order. -/
def fetchReleasesPlan (mirror primary : Except PlatformError Nat) :
    Except PlatformError Nat × List ApiType :=
  match mirror with
  | .error e => (.error e, [.PkgForge])
  | .ok st =>
      if shouldFallback st then (primary, [.PkgForge, .Primary])
      else (.ok st, [.PkgForge])

/-- C10: a transport-level mirror failure is returned immediately with
the primary API never contacted, and the primary API is contacted
exactly when the mirror answered 401, 403, 429 or a 5xx status. -/
theorem c10_mirror_fallback :
    (∀ e primary, fetchReleasesPlan (.error e) primary = (.error e, [.PkgForge]))
      ∧ (∀ mirror primary, ApiType.Primary ∈ (fetchReleasesPlan mirror primary).2
          ↔ ∃ st, mirror = .ok st
              ∧ (st = 401 ∨ st = 403 ∨ st = 429 ∨ (500 ≤ st ∧ st ≤ 599))) := by
  constructor
  · intro e primary
    rfl
  · intro mirror primary
    cases mirror with
    | error e => simp [fetchReleasesPlan]
    | ok st =>
        by_cases h : shouldFallback st = true
        · simp only [fetchReleasesPlan, if_pos h]
          simp only [shouldFallback, statusIsServerError, Bool.or_eq_true, beq_iff_eq,
            Bool.and_eq_true, decide_eq_true_eq] at h
          simp only [List.mem_cons, List.mem_singleton]
          constructor
          · intro _
            exact ⟨st, rfl, by omega⟩
          · intro _
            simp
        · simp only [fetchReleasesPlan, if_neg h]
          simp only [shouldFallback, statusIsServerError, Bool.or_eq_true, beq_iff_eq,
            Bool.and_eq_true, decide_eq_true_eq] at h
          push_neg at h
          simp only [List.mem_singleton]
          constructor
          · intro hmem
            cases hmem
          · rintro ⟨st2, hst2, hcase⟩
            cases hst2
            omega

/-- Witness: with a mirror 429 the primary API is contacted. -/
theorem c10_mirror_fallback_witness :
    ApiType.Primary ∈ (fetchReleasesPlan (.ok 429) (.ok 200)).2 :=
  (c10_mirror_fallback.2 (.ok 429) (.ok 200)).2 ⟨429, rfl, by omega⟩

/-! ## `decode_uri` (`src/utils.rs` lines 101-120) -/

/-- Value of a hex digit as matched by the character class
`[A-Fa-f0-9]` and read by `u8::from_str_radix(_, 16)`. -/
def hexDigitVal (c : Char) : Option Nat :=
  let n := c.toNat
  if 48 ≤ n ∧ n ≤ 57 then some (n - 48)
  else if 97 ≤ n ∧ n ≤ 102 then some (n - 87)
  else if 65 ≤ n ∧ n ≤ 70 then some (n - 55)
  else none

/-- Membership in the regex character class `[A-Fa-f0-9]`. -/
def isHexAscii (c : Char) : Bool :=
  (hexDigitVal c).isSome

/-- `u8::from_str_radix(&String::from_utf8_lossy(&[inp[i+1], inp[i+2]]), 16).unwrap_or(0)`
(src/utils.rs:111-114): an optional leading `+` is accepted by
`from_str_radix`; any parse failure becomes 0. -/
def hexByte (c1 c2 : Char) : Nat :=
  if c1 = '+' then
    match hexDigitVal c2 with
    | some v => v
    | none => 0
  else
    match hexDigitVal c1, hexDigitVal c2 with
    | some v1, some v2 => 16 * v1 + v2
    | _, _ => 0

/-- The `while i != inp.len()` loop of the `decode_uri` replacement
closure (src/utils.rs:109-116): reads `inp[i + 1]` and `inp[i + 2]`
and steps `i` by 3.  `none` models the panic of an out-of-bounds
index. -/
def decodeSeqLoop (inp : List Char) (i : Nat) : Option (List Nat) :=
  if i = inp.length then some []
  else if h : i + 2 < inp.length then
    let c1 := inp.get ⟨i + 1, by omega⟩
    let c2 := inp.get ⟨i + 2, h⟩
    (decodeSeqLoop inp (i + 3)).map (fun r => hexByte c1 c2 :: r)
  else none
termination_by inp.length - i
decreasing_by omega

/-- A maximal match of the regex `(%[A-Fa-f0-9]{2})+` at the head of
the input (the regex crate finds leftmost matches and `+` is greedy):
the matched run and the remainder, or `none` when the head does not
match. -/
def pctRun : List Char → Option (List Char × List Char)
  | c :: d :: e :: tl =>
      if c = '%' ∧ isHexAscii d = true ∧ isHexAscii e = true then
        match pctRun tl with
        | some (run, rest) => some (c :: d :: e :: run, rest)
        | none => some ([c, d, e], tl)
      else none
  | _ => none

/-- A matched run is an initial segment of the input of positive length
divisible by 3. -/
theorem pctRun_spec :
    ∀ (l : List Char) run rest, pctRun l = some (run, rest) →
      l = run ++ rest ∧ run.length % 3 = 0 ∧ 0 < run.length := by
  have H : ∀ (n : Nat) (l : List Char), l.length < n → ∀ run rest,
      pctRun l = some (run, rest) →
      l = run ++ rest ∧ run.length % 3 = 0 ∧ 0 < run.length := by
    intro n
    induction n with
    | zero => intro l hl; exact absurd hl (Nat.not_lt_zero _)
    | succ n ih =>
        intro l hl run rest h
        rcases l with _ | ⟨c, l1⟩
        · simp [pctRun] at h
        rcases l1 with _ | ⟨d, l2⟩
        · simp [pctRun] at h
        rcases l2 with _ | ⟨e, tl⟩
        · simp [pctRun] at h
        simp only [pctRun] at h
        by_cases hc : c = '%' ∧ isHexAscii d = true ∧ isHexAscii e = true
        · rw [if_pos hc] at h
          cases hr : pctRun tl with
          | some pair =>
              rw [hr] at h
              obtain ⟨hrun, hrest⟩ := Prod.mk.injEq .. ▸ (Option.some.injEq .. ▸ h)
              have hlen : tl.length < n := by
                simp at hl
                omega
              obtain ⟨he, hm, hp⟩ := ih tl hlen pair.1 pair.2 (by simpa using hr)
              refine ⟨?_, ?_, ?_⟩
              · simp [← hrun, ← hrest, he]
              · simp [← hrun]
                omega
              · simp [← hrun]
          | none =>
              rw [hr] at h
              obtain ⟨hrun, hrest⟩ := Prod.mk.injEq .. ▸ (Option.some.injEq .. ▸ h)
              refine ⟨by simp [← hrun, ← hrest], by simp [← hrun], by simp [← hrun]⟩
        · rw [if_neg hc] at h
          cases h
  exact fun l => H (l.length + 1) l (Nat.lt_succ_self _)

/-- `decodeSeqLoop` cannot panic when the distance from `i` to the end
is a multiple of 3 — the shape every regex match of
`(%[A-Fa-f0-9]{2})+` has. -/
theorem decodeSeqLoop_isSome :
    ∀ (fuel : Nat) (l : List Char) (i : Nat), l.length - i ≤ fuel →
      i ≤ l.length → (l.length - i) % 3 = 0 → (decodeSeqLoop l i).isSome = true := by
  intro fuel
  induction fuel with
  | zero =>
      intro l i hf h1 h2
      have heq : i = l.length := by omega
      unfold decodeSeqLoop
      rw [if_pos heq]
      rfl
  | succ n ih =>
      intro l i hf h1 h2
      by_cases heq : i = l.length
      · unfold decodeSeqLoop
        rw [if_pos heq]
        rfl
      · have h3 : i + 3 ≤ l.length := by omega
        unfold decodeSeqLoop
        rw [if_neg heq, dif_pos (show i + 2 < l.length by omega)]
        have hrec := ih l (i + 3) (by omega) (by omega) (by omega)
        obtain ⟨v, hv⟩ := Option.isSome_iff_exists.mp hrec
        rw [hv]
        rfl

/-- A byte of `String::from_utf8_lossy`'s output, modelled byte-wise:
exact for ASCII bytes (the only ones the claims evaluate); a
non-ASCII byte becomes the replacement character (the real lossy
decoder groups well-formed multi-byte sequences, which no claim
exercises). -/
def lossyByteToChar (b : Nat) : Char :=
  if h : b < 128 then Char.ofNat b else Char.ofNat 65533

/-- `decode_uri`'s `re.replace_all` scan (src/utils.rs:105-119): each
leftmost maximal run matching `(%[A-Fa-f0-9]{2})+` is replaced by the
closure's output (the decoded bytes, read back as characters); all
other characters are copied.  `none` models a panic inside the
closure. -/
def decodeUriChars : List Char → Option (List Char)
  | [] => some []
  | c :: rest =>
      match hp : pctRun (c :: rest) with
      | some (run, rest2) =>
          match decodeSeqLoop run 0 with
          | none => none
          | some bytes =>
              match decodeUriChars rest2 with
              | none => none
              | some out => some (bytes.map lossyByteToChar ++ out)
      | none =>
          match decodeUriChars rest with
          | none => none
          | some out => some (c :: out)
termination_by l => l.length
decreasing_by
  · have hspec := pctRun_spec (c :: rest) run rest2 hp
    have hlen := congrArg List.length hspec.1
    simp at hlen
    simp
    omega
  · simp

/-- `decode_uri` (src/utils.rs:102-120). -/
def decodeUri (s : String) : Option String :=
  (decodeUriChars s.data).map List.asString

/-- `decode_uri` never panics: the matched runs always have length a
positive multiple of 3, so the index arithmetic of the closure stays in
bounds. -/
theorem decodeUri_total (s : String) : ∃ d, decodeUri s = some d := by
  have H : ∀ (n : Nat) (l : List Char), l.length ≤ n →
      (decodeUriChars l).isSome = true := by
    intro n
    induction n with
    | zero =>
        intro l hl
        have : l = [] := List.length_eq_zero.mp (by omega)
        subst this
        simp [decodeUriChars]
    | succ n ih =>
        intro l hl
        rcases l with _ | ⟨c, rest⟩
        · simp [decodeUriChars]
        rw [decodeUriChars]
        split
        next run rest2 hp =>
            have hspec := pctRun_spec (c :: rest) run rest2 hp
            have hbytes := decodeSeqLoop_isSome run.length run 0 (by omega) (by omega)
              (by simpa using hspec.2.1)
            obtain ⟨bytes, hb⟩ := Option.isSome_iff_exists.mp hbytes
            have hlen := congrArg List.length hspec.1
            simp at hlen
            have hrest : (decodeUriChars rest2).isSome = true := by
              apply ih
              simp at hl
              omega
            obtain ⟨out, hout⟩ := Option.isSome_iff_exists.mp hrest
            rw [hb, hout]
            rfl
        next hp =>
            have hrest : (decodeUriChars rest).isSome = true := by
              apply ih
              simp at hl
              omega
            obtain ⟨out, hout⟩ := Option.isSome_iff_exists.mp hrest
            rw [hout]
            rfl
  obtain ⟨d, hd⟩ := Option.isSome_iff_exists.mp (H s.data.length s.data le_rfl)
  exact ⟨d.asString, by simp [decodeUri, hd]⟩

/-! ## `PlatformUrl::parse` (`src/platform.rs` lines 23-87) -/

/-- `PlatformUrl` (src/platform.rs:23-29). -/
inductive PlatformUrl
  | Github (s : String)
  | Gitlab (s : String)
  | Oci (s : String)
  | DirectUrl (s : String)
deriving DecidableEq, Repr

/-- `contains` on character lists. -/
def listContainsSub : List Char → List Char → Bool
  | [], pat => pat.isEmpty
  | c :: rest, pat => charsStartWith (c :: rest) pat || listContainsSub rest pat

/-- `str::contains(pat)`. -/
def strContainsSub (s pat : String) : Bool :=
  listContainsSub s.data pat.data

/-- Membership in the slice `&['\'', '"', ' ']` passed to
`trim_matches` (src/platform.rs:53, 73). -/
def isTrimChar (c : Char) : Bool :=
  c == '\'' || c == '"' || c == ' '

/-- `str::trim_matches(&['\'', '"', ' '][..])`: strips those characters
from both ends. -/
def trimMatches (s : String) : String :=
  (((s.data.dropWhile isTrimChar).reverse.dropWhile isTrimChar).reverse).asString

/-- The tag pipeline applied to capture group 2 in both regex branches
(src/platform.rs:51-55 and 71-75, before the final `.map(decode_uri)`):
`caps.get(2).map(|tag| tag.as_str().trim_matches(&['\'', '"', ' '][..])).filter(|&tag| !tag.is_empty())`. -/
def tagPipeline (cap2 : Option String) : Option String :=
  match cap2 with
  | none => none
  | some raw =>
      let t := trimMatches raw
      if t = "" then none else some t

/-- `PlatformUrl::parse` (src/platform.rs:43-86).  The external calls
are abstracted by their results: `gh` and `gl` are the capture groups
`(get(1), get(2))` of `GITHUB_RELEASE_RE` and `GITLAB_RELEASE_RE`
against `url` when the regex matches (the crate's `is_match` and
`captures` agree, so one value models both calls), and `urlNorm` is
`Url::parse(&url).ok().map(|u| u.to_string())`.  A result of `none`
models a panic: the `caps.get(1).unwrap()` sites (lines 50, 66) and
the indexing inside `decode_uri`. -/
def platformUrlParse (url : String)
    (gh gl : Option (Option String × Option String))
    (urlNorm : Option String) : Option (Except PlatformError PlatformUrl) :=
  if strStartsWith url "ghcr.io" then some (.ok (.Oci url))
  else
    match gh with
    | some caps =>
        match caps.1 with
        | none => none
        | some project =>
            match tagPipeline caps.2 with
            | some t =>
                match decodeUri t with
                | none => none
                | some tag => some (.ok (.Github (project ++ "@" ++ tag)))
            | none => some (.ok (.Github project))
    | none =>
        match gl with
        | some caps =>
            match caps.1 with
            | none => none
            | some project =>
                if strStartsWith project "api" || strContainsSub project "/-/" then
                  some (.ok (.DirectUrl url))
                else
                  match tagPipeline caps.2 with
                  | some t =>
                      match decodeUri t with
                      | none => none
                      | some tag => some (.ok (.Gitlab (project ++ "@" ++ tag)))
                  | none => some (.ok (.Gitlab project))
        | none =>
            match urlNorm with
            | some u => some (.ok (.DirectUrl u))
            | none => some (.error (.InvalidInput url))

/-- C9: `PlatformUrl::parse` is total.  Under the regex crate's
guarantee that capture group 1 — which is not optional in either
pattern — participates in every match, `parse` never panics (in
particular the `caps.get(1).unwrap()` extractions and the
percent-decoding of the captured tag succeed), and the only error it
can return is `InvalidInput`. -/
theorem c9_parse_total (url : String)
    (gh gl : Option (Option String × Option String)) (urlNorm : Option String)
    (hgh : ∀ caps, gh = some caps → caps.1.isSome = true)
    (hgl : ∀ caps, gl = some caps → caps.1.isSome = true) :
    ∃ r, platformUrlParse url gh gl urlNorm = some r
      ∧ ∀ e, r = .error e → ∃ s, e = .InvalidInput s := by
  unfold platformUrlParse
  by_cases hoc : strStartsWith url "ghcr.io" = true
  · rw [if_pos hoc]
    exact ⟨.ok (.Oci url), rfl, fun e he => by cases he⟩
  · rw [if_neg hoc]
    cases gh with
    | some caps =>
        obtain ⟨c1, c2⟩ := caps
        obtain ⟨p, hp⟩ := Option.isSome_iff_exists.mp (hgh (c1, c2) rfl)
        have hc1 : c1 = some p := hp
        subst hc1
        cases htag : tagPipeline c2 with
        | some t =>
            obtain ⟨d, hd⟩ := decodeUri_total t
            refine ⟨.ok (.Github (p ++ "@" ++ d)), ?_, fun e he => by cases he⟩
            simp [htag, hd]
        | none =>
            refine ⟨.ok (.Github p), ?_, fun e he => by cases he⟩
            simp [htag]
    | none =>
        cases gl with
        | some caps =>
            obtain ⟨c1, c2⟩ := caps
            obtain ⟨p, hp⟩ := Option.isSome_iff_exists.mp (hgl (c1, c2) rfl)
            have hc1 : c1 = some p := hp
            subst hc1
            by_cases hapi : (strStartsWith p "api" || strContainsSub p "/-/") = true
            · refine ⟨.ok (.DirectUrl url), ?_, fun e he => by cases he⟩
              simp [hapi]
            · cases htag : tagPipeline c2 with
              | some t =>
                  obtain ⟨d, hd⟩ := decodeUri_total t
                  refine ⟨.ok (.Gitlab (p ++ "@" ++ d)), ?_, fun e he => by cases he⟩
                  simp [hapi, htag, hd]
              | none =>
                  refine ⟨.ok (.Gitlab p), ?_, fun e he => by cases he⟩
                  simp [hapi, htag]
        | none =>
            cases urlNorm with
            | some u => exact ⟨.ok (.DirectUrl u), rfl, fun e he => by cases he⟩
            | none =>
                refine ⟨.error (.InvalidInput url), rfl, fun e he => ?_⟩
                injection he with h1
                exact ⟨url, h1.symm⟩

/-- Witness: a concrete GitHub release URL with a percent-encoded tag
parses without panicking. -/
theorem c9_parse_total_witness :
    ∃ r, platformUrlParse "github.com/pkgforge/soar@v0%2E1"
        (some (some "pkgforge/soar", some "v0%2E1")) none none = some r
      ∧ ∀ e, r = .error e → ∃ s, e = .InvalidInput s :=
  c9_parse_total "github.com/pkgforge/soar@v0%2E1"
    (some (some "pkgforge/soar", some "v0%2E1")) none none
    (fun caps h => by cases h; rfl) (fun caps h => by cases h)

end SoarDl
